import Mathlib

set_option maxHeartbeats 1000000

namespace httpsignatures

/-- Single ASCII apostrophe character as a string; the Go source writes
error messages with quoted fragments such as `duplicate param 'key'`. -/
def sq : String := String.singleton (Char.ofNat 39)

-- ASCII codes (src/parser.go, const block)
def fromA : Nat := 65
def toZ : Nat := 90
def froma : Nat := 97
def toz : Nat := 122
def equal : Nat := 61
def quote : Nat := 34
def space : Nat := 32
def div : Nat := 44
def from0 : Nat := 48
def to9 : Nat := 57
def min : Nat := 45

/-- Byte class of ASCII letters, exactly the comparisons
`(cur >= fromA && cur <= toZ) || (cur >= froma && cur <= toz)` from the source. -/
def isLetter (c : Nat) : Prop := (fromA ≤ c ∧ c ≤ toZ) ∨ (froma ≤ c ∧ c ≤ toz)

instance (c : Nat) : Decidable (isLetter c) := by unfold isLetter; infer_instance

/-- Byte class of ASCII digits, `cur >= from0 && cur <= to9` from the source. -/
def isDigit (c : Nat) : Prop := from0 ≤ c ∧ c ≤ to9

instance (c : Nat) : Decidable (isDigit c) := by unfold isDigit; infer_instance

/-- Byte class accepted by `parseAlgorithm`: letters, digits or `-`. -/
def isAlgChar (c : Nat) : Prop := isLetter c ∨ isDigit c ∨ c = min

instance (c : Nat) : Decidable (isAlgChar c) := by unfold isAlgChar; infer_instance

/-- Go `string(bs)` on a byte slice; for the ASCII bytes this parser stores,
each byte becomes the character with that code point. -/
def bytesToString (l : List Nat) : String := String.mk (l.map Char.ofNat)

/-- Byte sequence of a Lean string; used to write concrete header texts. -/
def strBytes (s : String) : List Nat := s.data.map Char.toNat

/-- ASCII upper-casing of one character (`strings.ToUpper` restricted to the
ASCII range, sufficient for keys built from letters, digits and `-`). -/
def charUpper (c : Char) : Char :=
  if 97 ≤ c.toNat ∧ c.toNat ≤ 122 then Char.ofNat (c.toNat - 32) else c

/-- `strings.ToUpper` for the ASCII strings this parser produces. -/
def toUpperS (s : String) : String := String.mk (s.data.map charUpper)

/-- Helper for `fields`: accumulates a reversed current word. -/
def fieldsAux : List Char → List Char → List String
  | acc, [] => if acc.isEmpty then [] else [String.mk acc.reverse]
  | acc, c :: cs =>
    if c.toNat = space ∨ c.toNat = 9 ∨ c.toNat = 10 ∨ c.toNat = 11 ∨ c.toNat = 12 ∨ c.toNat = 13 then
      if acc.isEmpty then fieldsAux [] cs else String.mk acc.reverse :: fieldsAux [] cs
    else fieldsAux (c :: acc) cs

/-- Go `strings.Fields`: split around runs of whitespace. -/
def fields (s : String) : List String := fieldsAux [] s.data

/-- ParsedHeader: Authorization or Signature header parsed into params
(src/parser.go). `created`/`expires` are Go `time.Time` values constructed by
`time.Unix(sec, 0)`; they are modelled by the seconds value. -/
structure ParsedHeader where
  keyword : String := ""
  keyID : String := ""
  signature : String := ""
  algorithm : String := ""
  created : Int := 0
  expires : Int := 0
  headers : List String := []
deriving DecidableEq

/-- ParsedDigestHeader: Digest header parsed into params (alg and digest). -/
structure ParsedDigestHeader where
  algo : String := ""
  digest : String := ""
deriving DecidableEq

/-- ParserError: errors during parsing. The wrapped Go `error` is modelled by
its message. -/
structure ParserError where
  Message : String
  Err : Option String
deriving DecidableEq

/-- Parser internal struct. `params` is the Go `map[string]bool` visited set,
modelled as the list of keys that have been set to true. -/
structure Parser where
  parsedHeader : ParsedHeader := {}
  parsedDigestHeader : ParsedDigestHeader := {}
  keyword : List Nat := []
  key : List Nat := []
  value : List Nat := []
  flag : String := ""
  params : List String := []
deriving DecidableEq

/-- NewParser: create new parser (all fields zero, empty params map). -/
def newParser : Parser := {}

/-- Model of Go `strconv.ParseInt(s, 10, 32)` on the digit-only strings this
parser produces: rejects empty or non-digit input as a syntax error and any
value above the signed 32-bit maximum as a range error (the wrapped
`*strconv.NumError` is modelled by its kind message). -/
def digitsToNat (v : List Nat) : Nat := v.foldl (fun a c => a * 10 + (c - from0)) 0

def parseInt32 (v : List Nat) : Except String Int :=
  if v = [] ∨ ¬ (∀ c ∈ v, isDigit c) then .error ("invalid syntax")
  else if 2147483647 < digitsToNat v then .error ("value out of range")
  else .ok (digitsToNat v)

/-- `Parser.intToTime`: `strconv.ParseInt(string(v), 10, 32)` then
`time.Unix(sec, 0)`, modelled as the seconds value. -/
def intToTime (v : List Nat) : Except String Int := parseInt32 v

/-- `Parser.setKeyword`: requires the accumulated keyword to be `Signature`. -/
def setKeyword (p : Parser) : Except ParserError Parser :=
  if bytesToString p.keyword ≠ "Signature" then
    .error ⟨"invalid Authorization header, must start from Signature keyword", none⟩
  else
    .ok { p with parsedHeader := { p.parsedHeader with keyword := "Signature" } }

/-- `Parser.getValueType`: `created`/`expires` take integer values, every
other key takes a quoted string value. -/
def getValueType (p : Parser) : String :=
  if bytesToString p.key = "created" ∨ bytesToString p.key = "expires" then ("int") else ("string")

/-- `Parser.setKeyValue`: store a completed key/value pair. Rejects an empty
value, then a duplicate key; records the key in `params`; stores recognized
keys into the parsed header (unrecognized keys are dropped); clears the
key and value buffers (the Go source clears them once after the chain). -/
def setKeyValue (p : Parser) : Except ParserError Parser :=
  let k := bytesToString p.key
  if p.value = [] then
    .error ⟨"empty value for key " ++ sq ++ k ++ sq, none⟩
  else if k ∈ p.params then
    .error ⟨"duplicate param " ++ sq ++ k ++ sq, none⟩
  else
    let q := { p with params := k :: p.params }
    if k = "keyId" then
      .ok { q with parsedHeader := { q.parsedHeader with keyID := bytesToString p.value }, key := [], value := [] }
    else if k = "algorithm" then
      .ok { q with parsedHeader := { q.parsedHeader with algorithm := bytesToString p.value }, key := [], value := [] }
    else if k = "headers" then
      .ok { q with parsedHeader := { q.parsedHeader with headers := fields (bytesToString p.value) }, key := [], value := [] }
    else if k = "signature" then
      .ok { q with parsedHeader := { q.parsedHeader with signature := bytesToString p.value }, key := [], value := [] }
    else if k = "created" then
      match intToTime p.value with
      | .error e => .error ⟨"wrong " ++ sq ++ "created" ++ sq ++ " param value", some e⟩
      | .ok t => .ok { q with parsedHeader := { q.parsedHeader with created := t }, key := [], value := [] }
    else if k = "expires" then
      match intToTime p.value with
      | .error e => .error ⟨"wrong " ++ sq ++ "expires" ++ sq ++ " param value", some e⟩
      | .ok t => .ok { q with parsedHeader := { q.parsedHeader with expires := t }, key := [], value := [] }
    else
      .ok { q with key := [], value := [] }

/-- `Parser.setDigest`: store the completed digest header; the algorithm name
is upper-cased, the digest value taken verbatim. -/
def setDigest (p : Parser) : Except ParserError Parser :=
  if p.value = [] then
    .error ⟨"empty digest value", none⟩
  else
    .ok { p with
          parsedDigestHeader := ⟨toUpperS (bytesToString p.key), bytesToString p.value⟩,
          key := [], value := [] }

/-- `Parser.parseKeyword`: letters accumulate; a space after at least one
letter completes the keyword; every other byte is skipped. -/
def parseKeyword (p : Parser) (cur : Nat) : Except ParserError Parser :=
  if isLetter cur then
    .ok { p with keyword := p.keyword ++ [cur] }
  else if cur = space ∧ p.keyword ≠ [] then
    match setKeyword p with
    | .error e => .error e
    | .ok q => .ok { q with flag := "param" }
  else
    .ok p

/-- `Parser.parseKey`: letters accumulate into the key; `=` selects the value
state from the key's value type; a space after a non-empty key moves to the
`equal` state; any other non-space byte is an error. -/
def parseKey (p : Parser) (cur : Nat) : Except ParserError Parser :=
  if isLetter cur then
    .ok { p with key := p.key ++ [cur] }
  else if cur = equal then
    if getValueType p = "string" then .ok { p with flag := "quote" }
    else if getValueType p = "int" then .ok { p with flag := "intValue" }
    else .ok p
  else if cur = space ∧ p.key ≠ [] then
    .ok { p with flag := "equal" }
  else if cur ≠ space then
    .error ⟨"found " ++ sq ++ String.singleton (Char.ofNat cur) ++ sq ++ " — unsupported symbol in key", none⟩
  else
    .ok p

/-- `Parser.parseAlgorithm`: letters, digits and `-` accumulate; `=` moves to
the raw value state; anything else is an error. -/
def parseAlgorithm (p : Parser) (cur : Nat) : Except ParserError Parser :=
  if isAlgChar cur then
    .ok { p with key := p.key ++ [cur] }
  else if cur = equal then
    .ok { p with flag := "stringRawValue" }
  else
    .error ⟨"found " ++ sq ++ String.singleton (Char.ofNat cur) ++ sq ++ " — unsupported symbol in algorithm", none⟩

/-- `Parser.parseEqual`: expects `=` (selecting the value state) or space. -/
def parseEqual (p : Parser) (cur : Nat) : Except ParserError Parser :=
  if cur = equal then
    if getValueType p = "string" then .ok { p with flag := "quote" }
    else if getValueType p = "int" then .ok { p with flag := "intValue" }
    else .ok p
  else if cur = space then
    .ok p
  else
    .error ⟨"found " ++ sq ++ String.singleton (Char.ofNat cur) ++ sq ++ " — unsupported symbol, expected " ++ sq ++ "=" ++ sq ++ " or space symbol", none⟩

/-- `Parser.parseQuote`: expects the opening `"` or space. -/
def parseQuote (p : Parser) (cur : Nat) : Except ParserError Parser :=
  if cur = quote then
    .ok { p with flag := "stringValue" }
  else if cur = space then
    .ok p
  else
    .error ⟨"found " ++ sq ++ String.singleton (Char.ofNat cur) ++ sq ++ " — unsupported symbol, expected " ++ sq ++ "\"" ++ sq ++ " or space symbol", none⟩

/-- `Parser.parseStringValue`: any byte except `"` accumulates; the closing
quote completes the pair. -/
def parseStringValue (p : Parser) (cur : Nat) : Except ParserError Parser :=
  if cur ≠ quote then
    .ok { p with value := p.value ++ [cur] }
  else
    match setKeyValue { p with flag := "div" } with
    | .error e => .error e
    | .ok q => .ok q

/-- `Parser.parseIntValue`: digits accumulate; a space after a non-empty value
or a `,` completes the pair; a space before any digit is skipped; any other
byte falls through every branch and is skipped without error. -/
def parseIntValue (p : Parser) (cur : Nat) : Except ParserError Parser :=
  if isDigit cur then
    .ok { p with value := p.value ++ [cur] }
  else if cur = space then
    if p.value = [] then .ok p
    else
      match setKeyValue { p with flag := "div" } with
      | .error e => .error e
      | .ok q => .ok q
  else if cur = div then
    match setKeyValue { p with flag := "param" } with
    | .error e => .error e
    | .ok q => .ok q
  else
    .ok p

/-- `Parser.parseStringRawValue`: every byte accumulates verbatim. -/
def parseStringRawValue (p : Parser) (cur : Nat) : Except ParserError Parser :=
  .ok { p with value := p.value ++ [cur] }

/-- `Parser.parseDiv`: expects `,` (back to `param`) or space. -/
def parseDiv (p : Parser) (cur : Nat) : Except ParserError Parser :=
  if cur = div then
    .ok { p with flag := "param" }
  else if cur = space then
    .ok p
  else
    .error ⟨"found " ++ sq ++ String.singleton (Char.ofNat cur) ++ sq ++ " — unsupported symbol, expected " ++ sq ++ "," ++ sq ++ " or space symbol", none⟩

/-- `Parser.handleSignatureEOF`: per-state handling of end-of-input for the
Authorization/Signature grammar. -/
def handleSignatureEOF (p : Parser) : Except ParserError Parser :=
  if p.flag = "keyword" then setKeyword p
  else if p.flag = "param" then
    if p.key = [] then
      .error ⟨"unexpected end of header, expected parameter", none⟩
    else
      .error ⟨"unexpected end of header, expected " ++ sq ++ "=" ++ sq ++ " symbol and field value", none⟩
  else if p.flag = "equal" then
    .error ⟨"unexpected end of header, expected field value", none⟩
  else if p.flag = "quote" then
    .error ⟨"unexpected end of header, expected " ++ sq ++ "\"" ++ sq ++ " symbol and field value", none⟩
  else if p.flag = "stringValue" then
    .error ⟨"unexpected end of header, expected " ++ sq ++ "\"" ++ sq ++ " symbol", none⟩
  else if p.flag = "intValue" then setKeyValue p
  else .ok p

/-- `Parser.handleDigestEOF`: per-state handling of end-of-input for the
Digest grammar. -/
def handleDigestEOF (p : Parser) : Except ParserError Parser :=
  if p.flag = "algorithm" then
    .error ⟨"unexpected end of header, expected digest value", none⟩
  else if p.flag = "stringRawValue" then setDigest p
  else .ok p

/-- Dispatch of one byte on the current state, the `switch p.flag` inside
`Parser.parseSignature`. -/
def parseSignatureStep (p : Parser) (cur : Nat) : Except ParserError Parser :=
  if p.flag = "keyword" then parseKeyword p cur
  else if p.flag = "param" then parseKey p cur
  else if p.flag = "equal" then parseEqual p cur
  else if p.flag = "quote" then parseQuote p cur
  else if p.flag = "stringValue" then parseStringValue p cur
  else if p.flag = "intValue" then parseIntValue p cur
  else if p.flag = "div" then parseDiv p cur
  else .error ⟨"unexpected parser stage", none⟩

/-- The byte-reading loop of `Parser.parseSignature`: one dispatch per byte,
EOF handling at the end of the input. -/
def parseSignatureLoop : Parser → List Nat → Except ParserError Parser
  | p, [] => handleSignatureEOF p
  | p, c :: rest =>
    match parseSignatureStep p c with
    | .error e => .error e
    | .ok q => parseSignatureLoop q rest

/-- `Parser.parseSignature`: rejects an empty header, runs the loop, then
defaults an absent header list to the single entry `(created)` (RFC draft
2.1.6). Returns the parsed header together with the parser state (the Go
method mutates its receiver). -/
def parseSignature (p : Parser) (header : List Nat) : Except ParserError (ParsedHeader × Parser) :=
  if header = [] then .error ⟨"empty header", none⟩
  else
    match parseSignatureLoop p header with
    | .error e => .error e
    | .ok q =>
      let q :=
        if q.parsedHeader.headers = [] then
          { q with parsedHeader := { q.parsedHeader with headers := q.parsedHeader.headers ++ ["(created)"] } }
        else q
      .ok (q.parsedHeader, q)

/-- Dispatch of one byte for the Digest grammar, the `switch p.flag` inside
`Parser.parseDigest`. -/
def parseDigestStep (p : Parser) (cur : Nat) : Except ParserError Parser :=
  if p.flag = "algorithm" then parseAlgorithm p cur
  else if p.flag = "stringRawValue" then parseStringRawValue p cur
  else .error ⟨"unexpected parser stage", none⟩

/-- The byte-reading loop of `Parser.parseDigest`. -/
def parseDigestLoop : Parser → List Nat → Except ParserError Parser
  | p, [] => handleDigestEOF p
  | p, c :: rest =>
    match parseDigestStep p c with
    | .error e => .error e
    | .ok q => parseDigestLoop q rest

/-- `Parser.parseDigest`: rejects an empty header, runs the loop, and returns
the parsed digest header together with the parser state. -/
def parseDigest (p : Parser) (header : List Nat) : Except ParserError (ParsedDigestHeader × Parser) :=
  if header = [] then .error ⟨"empty digest header", none⟩
  else
    match parseDigestLoop p header with
    | .error e => .error e
    | .ok q => .ok (q.parsedDigestHeader, q)

/-- `Parser.ParseAuthorizationHeader`: sets the state to `keyword` and scans;
no other field of the parser is touched. -/
def ParseAuthorizationHeader (p : Parser) (header : List Nat) : Except ParserError (ParsedHeader × Parser) :=
  parseSignature { p with flag := "keyword" } header

/-- `Parser.ParseSignatureHeader`: sets the state to `param` and scans;
no other field of the parser is touched. -/
def ParseSignatureHeader (p : Parser) (header : List Nat) : Except ParserError (ParsedHeader × Parser) :=
  parseSignature { p with flag := "param" } header

/-- `Parser.ParseDigestHeader`: sets the state to `algorithm` and scans;
no other field of the parser is touched. -/
def ParseDigestHeader (p : Parser) (header : List Nat) : Except ParserError (ParsedDigestHeader × Parser) :=
  parseDigest { p with flag := "algorithm" } header

/-- Value of one base64 alphabet index (RFC 4648 standard alphabet), the
encoding table used by Go `encoding/base64.StdEncoding`. -/
def b64Char (n : Nat) : Nat :=
  if n < 26 then 65 + n
  else if n < 52 then 97 + (n - 26)
  else if n < 62 then 48 + (n - 52)
  else if n = 62 then 43
  else 47

/-- Base64 encoding of a byte sequence with `=` padding
(`base64.StdEncoding.EncodeToString`). -/
def base64Encode : List Nat → List Nat
  | [] => []
  | [a] => [b64Char (a / 4), b64Char (a % 4 * 16), 61, 61]
  | [a, b] => [b64Char (a / 4), b64Char (a % 4 * 16 + b / 16), b64Char (b % 16 * 4), 61]
  | a :: b :: c :: rest =>
    b64Char (a / 4) :: b64Char (a % 4 * 16 + b / 16) :: b64Char (b % 16 * 4 + c / 64) ::
      b64Char (c % 64) :: base64Encode rest

/-- Index of one base64 alphabet byte, `none` for a byte outside the
alphabet. -/
def b64Val (c : Nat) : Option Nat :=
  if 65 ≤ c ∧ c ≤ 90 then some (c - 65)
  else if 97 ≤ c ∧ c ≤ 122 then some (c - 71)
  else if 48 ≤ c ∧ c ≤ 57 then some (c + 4)
  else if c = 43 then some 62
  else if c = 47 then some 63
  else none

/-- Base64 decoding (`base64.StdEncoding.DecodeString`): the input must be a
sequence of four-byte groups, with `=` padding only closing the last group;
anything else is an error. -/
def base64Decode : List Nat → Except String (List Nat)
  | [] => .ok []
  | c1 :: c2 :: c3 :: c4 :: rest =>
    if c3 = 61 ∧ c4 = 61 ∧ rest = [] then
      match b64Val c1, b64Val c2 with
      | some v1, some v2 =>
        if v2 % 16 = 0 then .ok [v1 * 4 + v2 / 16] else .error ("illegal base64 data")
      | _, _ => .error ("illegal base64 data")
    else if c4 = 61 ∧ rest = [] then
      match b64Val c1, b64Val c2, b64Val c3 with
      | some v1, some v2, some v3 =>
        if v3 % 4 = 0 then .ok [v1 * 4 + v2 / 16, v2 % 16 * 16 + v3 / 4]
        else .error ("illegal base64 data")
      | _, _, _ => .error ("illegal base64 data")
    else
      match b64Val c1, b64Val c2, b64Val c3, b64Val c4 with
      | some v1, some v2, some v3, some v4 =>
        match base64Decode rest with
        | .ok ds => .ok ((v1 * 4 + v2 / 16) :: (v2 % 16 * 16 + v3 / 4) :: (v3 % 4 * 64 + v4) :: ds)
        | .error e => .error e
      | _, _, _, _ => .error ("illegal base64 data")
  | _ => .error ("illegal base64 data")

/-- Modelled from the spec: the digest hash algorithm implementations (MD5,
SHA-256, SHA-512 and their shared helpers, §4.3) are not under src/; only the
SHA-256 wrapper is. Each implementation exposes a name and a hash function
over a byte body; the three hash functions themselves are cryptographic
primitives (external collaborators) and are kept abstract as parameters. -/
structure DigestHashAlgorithm where
  algorithm : String
  create : List Nat → List Nat

/-- Modelled from the spec: `digestHashAlgorithmVerify` (§4.3, not under
src/) recomputes the hash over the given body and compares it against the
decoded digest; a mismatch is the wrong-hash condition. -/
def digestHashAlgorithmVerify (a : DigestHashAlgorithm) (data digest : List Nat) : Except String Unit :=
  if a.create data = digest then .ok () else .error ("wrong hash")

/-- The three abstract hash primitives a digest registry is seeded with. -/
structure HashImpls where
  md5 : List Nat → List Nat
  sha256 : List Nat → List Nat
  sha512 : List Nat → List Nat

/-- Modelled from the spec: the Digest facade structure (§4.4, §6; digest.go
is not under src/): a name-keyed registry of hash algorithms plus a default
algorithm name. -/
structure Digest where
  alg : List (String × DigestHashAlgorithm)
  defaultAlg : String

/-- Modelled from the spec: `NewDigest()` constructs with default registry
{MD5, SHA-256, SHA-512} and default name SHA-256 (§6). -/
def newDigest (H : HashImpls) : Digest :=
  { alg := [("MD5", ⟨"MD5", H.md5⟩), ("SHA-256", ⟨"SHA-256", H.sha256⟩),
            ("SHA-512", ⟨"SHA-512", H.sha512⟩)],
    defaultAlg := "SHA-256" }

/-- The hash primitive the default registry associates with a name. -/
def hashOf (H : HashImpls) (name : String) : List Nat → List Nat :=
  if name = "MD5" then H.md5
  else if name = "SHA-256" then H.sha256
  else if name = "SHA-512" then H.sha512
  else fun _ => []

/-- Modelled from the spec: `Digest.Create(algorithm_name, body)` (§4.4, not
under src/) yields the header value `NAME=base64(hash)` as a byte sequence,
or an unsupported-algorithm error when the name is not registered. -/
def Digest.Create (d : Digest) (name : String) (body : List Nat) : Except String (List Nat) :=
  match List.lookup name d.alg with
  | none => .error ("unsupported digest hash algorithm " ++ sq ++ name ++ sq)
  | some a => .ok (strBytes name ++ [equal] ++ base64Encode (a.create body))

/-- The part of an external HTTP message the digest facade consumes: the
Digest header text and the body bytes. -/
structure Message where
  digestHeader : List Nat
  body : List Nat

/-- Modelled from the spec: `Digest.Verify(message)` (§4.4, not under src/):
fails with `empty body` whenever the body length is zero, regardless of the
header content; then parses the Digest header, resolves the named algorithm,
base64-decodes the supplied digest value and compares it against the
recomputed hash, wrapping decode failures and mismatches as described in
§4.4. -/
def Digest.Verify (d : Digest) (m : Message) : Except String Unit :=
  if m.body = [] then .error ("empty body")
  else
    match ParseDigestHeader newParser m.digestHeader with
    | .error e => .error e.Message
    | .ok (h, _) =>
      match List.lookup h.algo d.alg with
      | none => .error ("unsupported digest hash algorithm " ++ sq ++ h.algo ++ sq)
      | some a =>
        match base64Decode (strBytes h.digest) with
        | .error e => .error ("error decode digest from base64: " ++ e)
        | .ok db =>
          match digestHashAlgorithmVerify a m.body db with
          | .error e => .error ("wrong digest: " ++ e)
          | .ok _ => .ok ()

/-- The keyword the `keyword` state of `parseKeyword` accumulates over an
input: letters are appended, the first space seen while the accumulator is
non-empty stops the scan, every other byte is skipped. -/
def scanKeyword : List Nat → List Nat → List Nat
  | acc, [] => acc
  | acc, c :: rest =>
    if isLetter c then scanKeyword (acc ++ [c]) rest
    else if c = space ∧ acc ≠ [] then acc
    else scanKeyword acc rest

/-- Scan-state invariant: the parsed header list is only ever non-empty once
the `headers` parameter has been recorded in the visited-parameter set. -/
def Inv (p : Parser) : Prop := p.parsedHeader.headers ≠ [] → "headers" ∈ p.params

/-- A parser state about to complete a value for the already-visited key
`keyId`; used as a concrete input below. -/
def dupStateParser : Parser :=
  { newParser with key := strBytes ("keyId"), value := [97], params := ["keyId"] }

/-- Hash-primitive assignment in which every hash of every body is the single
byte 1; used as a concrete instantiation below. -/
def constHashImpls : HashImpls := ⟨fun _ => [1], fun _ => [1], fun _ => [1]⟩

/-- A parser state sitting in the `div` state (right after a closed quote);
used as a concrete input below. -/
def divStateParser : Parser := { newParser with flag := "div" }

/-- The parser state reached after scanning `created=` from a fresh
Signature-header parse. -/
def createdIntParser : Parser :=
  { newParser with flag := "intValue", key := strBytes ("created") }

/-- The parser state reached after scanning `expires=` from a fresh
Signature-header parse. -/
def expiresIntParser : Parser :=
  { newParser with flag := "intValue", key := strBytes ("expires") }

/-- A parser state scanning the integer value of `created` with one digit
already accumulated; used as a concrete input below. -/
def intStateParser : Parser :=
  { newParser with flag := "intValue", key := strBytes ("created"), value := [49] }

/-- The exact result of a fresh Signature-header parse of `keyId="a"`;
written out so that concrete theorems state small literal values. -/
def keyIdAResult : ParsedHeader × Parser :=
  ({ keyID := "a", headers := ["(created)"] },
   { parsedHeader := { keyID := "a", headers := ["(created)"] },
     flag := "div", params := ["keyId"] })

/-- The exact result of a fresh Authorization-header parse of `Signature`. -/
def sigOnlyResult : ParsedHeader × Parser :=
  ({ keyword := "Signature", headers := ["(created)"] },
   { parsedHeader := { keyword := "Signature", headers := ["(created)"] },
     keyword := strBytes ("Signature"), flag := "keyword" })

/-- The exact result of a fresh Authorization-header parse of
`!Signature keyId="a"`. -/
def bangSigResult : ParsedHeader × Parser :=
  ({ keyword := "Signature", keyID := "a", headers := ["(created)"] },
   { parsedHeader := { keyword := "Signature", keyID := "a", headers := ["(created)"] },
     keyword := strBytes ("Signature"), flag := "div", params := ["keyId"] })

/-- The exact result of a fresh Signature-header parse of `created=1x2`. -/
def created1x2Result : ParsedHeader × Parser :=
  ({ created := 12, headers := ["(created)"] },
   { parsedHeader := { created := 12, headers := ["(created)"] },
     flag := "intValue", params := ["created"] })

lemma sigStep_keyword (p : Parser) (c : Nat) (h : p.flag = "keyword") :
    parseSignatureStep p c = parseKeyword p c := by
  simp [parseSignatureStep, h]

lemma sigStep_param (p : Parser) (c : Nat) (h : p.flag = "param") :
    parseSignatureStep p c = parseKey p c := by
  simp [parseSignatureStep, h]

lemma sigStep_intValue (p : Parser) (c : Nat) (h : p.flag = "intValue") :
    parseSignatureStep p c = parseIntValue p c := by
  simp [parseSignatureStep, h]

lemma sigLoop_cons_ok (p q : Parser) (c : Nat) (rest : List Nat)
    (h : parseSignatureStep p c = .ok q) :
    parseSignatureLoop p (c :: rest) = parseSignatureLoop q rest := by
  simp [parseSignatureLoop, h]

lemma sigLoop_cons_err (p : Parser) (e : ParserError) (c : Nat) (rest : List Nat)
    (h : parseSignatureStep p c = .error e) :
    parseSignatureLoop p (c :: rest) = .error e := by
  simp [parseSignatureLoop, h]

lemma skv_dup (p : Parser) (hv : p.value ≠ []) (hk : bytesToString p.key ∈ p.params) :
    setKeyValue p = .error ⟨"duplicate param " ++ sq ++ bytesToString p.key ++ sq, none⟩ := by
  simp only [setKeyValue]
  rw [if_neg hv, if_pos hk]

lemma skv_ok_params (p q : Parser) (h : setKeyValue p = .ok q) :
    bytesToString p.key ∉ p.params ∧ q.params = bytesToString p.key :: p.params := by
  simp only [setKeyValue] at h
  by_cases h1 : p.value = []
  · rw [if_pos h1] at h; cases h
  rw [if_neg h1] at h
  by_cases h2 : bytesToString p.key ∈ p.params
  · rw [if_pos h2] at h; cases h
  rw [if_neg h2] at h
  refine ⟨h2, ?_⟩
  by_cases h3 : bytesToString p.key = "keyId"
  · rw [if_pos h3] at h; cases h; rfl
  rw [if_neg h3] at h
  by_cases h4 : bytesToString p.key = "algorithm"
  · rw [if_pos h4] at h; cases h; rfl
  rw [if_neg h4] at h
  by_cases h5 : bytesToString p.key = "headers"
  · rw [if_pos h5] at h; cases h; rfl
  rw [if_neg h5] at h
  by_cases h6 : bytesToString p.key = "signature"
  · rw [if_pos h6] at h; cases h; rfl
  rw [if_neg h6] at h
  by_cases h7 : bytesToString p.key = "created"
  · rw [if_pos h7] at h
    cases hit : intToTime p.value with
    | error e => simp only [hit] at h; cases h
    | ok t => simp only [hit] at h; cases h; rfl
  rw [if_neg h7] at h
  by_cases h8 : bytesToString p.key = "expires"
  · rw [if_pos h8] at h
    cases hit : intToTime p.value with
    | error e => simp only [hit] at h; cases h
    | ok t => simp only [hit] at h; cases h; rfl
  rw [if_neg h8] at h
  cases h; rfl

/-- C7: completing a value for a parameter name already in the visited set
fails with the duplicate-param error naming the key (the first stored value
is never overwritten: a completion only stores and extends the visited set
when the key was not yet visited). -/
theorem C7_duplicate_param (p : Parser) :
    (p.value ≠ [] → bytesToString p.key ∈ p.params →
      setKeyValue p = .error ⟨"duplicate param " ++ sq ++ bytesToString p.key ++ sq, none⟩) ∧
    (∀ q, setKeyValue p = .ok q →
      bytesToString p.key ∉ p.params ∧ q.params = bytesToString p.key :: p.params) := by
  exact ⟨fun hv hk => skv_dup p hv hk, fun q h => skv_ok_params p q h⟩

/-- C7 witness: a parser completing a second `keyId` value fails with
`duplicate param 'keyId'`. -/
theorem C7_witness :
    setKeyValue dupStateParser =
      .error ⟨"duplicate param " ++ sq ++ bytesToString dupStateParser.key ++ sq, none⟩ :=
  (C7_duplicate_param dupStateParser).1 (by decide) (by decide)

/-- C2 (amended): end-of-input is accepted exactly in the `div` state, in the
`intValue` state when completing the pair succeeds, and in the `keyword`
state when the accumulated keyword is exactly `Signature`; end-of-input in
the `param` state (even at its very start, with no key accumulated), and in
the `equal`, `quote` and `stringValue` states, is a grammar error naming the
expected token. -/
theorem C2_eof_handling (p : Parser) :
    (p.flag = "div" → handleSignatureEOF p = .ok p) ∧
    (p.flag = "keyword" → handleSignatureEOF p = setKeyword p) ∧
    (p.flag = "keyword" →
      ((∃ q, handleSignatureEOF p = .ok q) ↔ bytesToString p.keyword = "Signature")) ∧
    (p.flag = "param" → p.key = [] →
      handleSignatureEOF p = .error ⟨"unexpected end of header, expected parameter", none⟩) ∧
    (p.flag = "param" → p.key ≠ [] →
      handleSignatureEOF p =
        .error ⟨"unexpected end of header, expected " ++ sq ++ "=" ++ sq ++ " symbol and field value", none⟩) ∧
    (p.flag = "equal" →
      handleSignatureEOF p = .error ⟨"unexpected end of header, expected field value", none⟩) ∧
    (p.flag = "quote" →
      handleSignatureEOF p =
        .error ⟨"unexpected end of header, expected " ++ sq ++ "\"" ++ sq ++ " symbol and field value", none⟩) ∧
    (p.flag = "stringValue" →
      handleSignatureEOF p =
        .error ⟨"unexpected end of header, expected " ++ sq ++ "\"" ++ sq ++ " symbol", none⟩) ∧
    (p.flag = "intValue" → handleSignatureEOF p = setKeyValue p) := by
  refine ⟨?_, ?_, ?_, ?_, ?_, ?_, ?_, ?_, ?_⟩
  · intro h; simp [handleSignatureEOF, h]
  · intro h; simp [handleSignatureEOF, h]
  · intro h
    rw [show handleSignatureEOF p = setKeyword p from by simp [handleSignatureEOF, h]]
    unfold setKeyword
    by_cases hs : bytesToString p.keyword = "Signature"
    · rw [if_neg (not_not_intro hs)]
      exact ⟨fun _ => hs, fun _ => ⟨_, rfl⟩⟩
    · rw [if_pos hs]
      exact ⟨fun ⟨q, hq⟩ => (nomatch hq), fun h' => absurd h' hs⟩
  · intro h hk; simp [handleSignatureEOF, h, hk]
  · intro h hk; simp [handleSignatureEOF, h, hk]
  · intro h; simp [handleSignatureEOF, h]
  · intro h; simp [handleSignatureEOF, h]
  · intro h; simp [handleSignatureEOF, h]
  · intro h; simp [handleSignatureEOF, h]

/-- C2 counterexample: the header `Signature` reaches end-of-input while
still mid-keyword and is accepted, and the header `keyId="a",` reaches
end-of-input at the very start of the `param` state and is rejected — both
against the claim's enumeration of clean terminal states. -/
theorem C2_counterexample :
    ParseAuthorizationHeader newParser (strBytes ("Signature")) = .ok sigOnlyResult ∧
    ParseSignatureHeader newParser (strBytes ("keyId=\"a\",")) =
      .error ⟨"unexpected end of header, expected parameter", none⟩ :=
  ⟨rfl, rfl⟩

/-- C2 witness: end-of-input in the `div` state is accepted. -/
theorem C2_witness : handleSignatureEOF divStateParser = .ok divStateParser :=
  (C2_eof_handling divStateParser).1 rfl

/-- C3 (amended): in the `intValue` state digits accumulate, a space before
any digit is skipped, a space after a digit or a comma completes the pair,
and every other byte — in particular a byte that is not a digit, space or
comma — is silently skipped without a grammar error. -/
theorem C3_intvalue_skips (p : Parser) (cur : Nat) :
    (isDigit cur → parseIntValue p cur = .ok { p with value := p.value ++ [cur] }) ∧
    (cur = space → p.value = [] → parseIntValue p cur = .ok p) ∧
    (cur = space → p.value ≠ [] → parseIntValue p cur = setKeyValue { p with flag := "div" }) ∧
    (cur = div → parseIntValue p cur = setKeyValue { p with flag := "param" }) ∧
    (¬ isDigit cur → cur ≠ space → cur ≠ div → parseIntValue p cur = .ok p) := by
  refine ⟨?_, ?_, ?_, ?_, ?_⟩
  · intro h; simp [parseIntValue, h]
  · intro h hv; subst h
    simp [parseIntValue, hv, show ¬ isDigit space from by decide]
  · intro h hv; subst h
    have hd : ¬ isDigit space := by decide
    simp only [parseIntValue, if_neg hd, if_pos rfl, if_neg hv]
    cases hsk : setKeyValue { p with flag := "div" } <;> simp [hsk]
  · intro h; subst h
    have hd : ¬ isDigit div := by decide
    have hs : div ≠ space := by decide
    simp only [parseIntValue, if_neg hd, if_neg hs, if_pos rfl]
    cases hsk : setKeyValue { p with flag := "param" } <;> simp [hsk]
  · intro h1 h2 h3; simp only [parseIntValue, if_neg h1, if_neg h2, if_neg h3]

/-- C3 counterexample: in `created=1x2` the byte `x` is not a digit, space or
comma, yet the parse succeeds (with the value read as 12) instead of
signalling a grammar error. -/
theorem C3_counterexample :
    ParseSignatureHeader newParser (strBytes ("created=1x2")) = .ok created1x2Result ∧
    created1x2Result.1.created = 12 :=
  ⟨rfl, rfl⟩

/-- C3 witness: the byte `x` is silently skipped mid-integer. -/
theorem C3_witness : parseIntValue intStateParser 120 = .ok intStateParser :=
  (C3_intvalue_skips intStateParser 120).2.2.2.2 (by decide) (by decide) (by decide)

/-- C4 (amended): the parse entry points set only the state-machine flag and
do not reset the accumulated keyword/key/value buffers, the visited-parameter
set or the partially-filled headers; a parser fresh from NewParser starts
empty, but reusing the parser returned by a successful parse for a second
identical parse changes the result: for `keyId="a"` the first call succeeds
and the second fails with a duplicate-param error. -/
theorem C4_no_reset :
    (∀ (p : Parser) (h : List Nat),
      ParseAuthorizationHeader p h = parseSignature { p with flag := "keyword" } h ∧
      ParseSignatureHeader p h = parseSignature { p with flag := "param" } h ∧
      ParseDigestHeader p h = parseDigest { p with flag := "algorithm" } h) ∧
    (ParseSignatureHeader newParser (strBytes ("keyId=\"a\"")) = .ok keyIdAResult ∧
      ParseSignatureHeader keyIdAResult.2 (strBytes ("keyId=\"a\"")) =
        .error ⟨"duplicate param " ++ sq ++ "keyId" ++ sq, none⟩) :=
  ⟨fun _ _ => ⟨rfl, rfl, rfl⟩, rfl, rfl⟩

/-- C4 counterexample: the second identical call on the same parser instance
does not return the same result as the first call — the first succeeds and
the second is a duplicate-param error. -/
theorem C4_counterexample :
    ParseSignatureHeader newParser (strBytes ("keyId=\"a\"")) = .ok keyIdAResult ∧
    ParseSignatureHeader keyIdAResult.2 (strBytes ("keyId=\"a\"")) =
      .error ⟨"duplicate param " ++ sq ++ "keyId" ++ sq, none⟩ ∧
    (Except.error ⟨"duplicate param " ++ sq ++ "keyId" ++ sq, none⟩ :
        Except ParserError (ParsedHeader × Parser)) ≠ .ok keyIdAResult :=
  ⟨rfl, rfl, fun hc => (nomatch hc)⟩

lemma keyword_loop (h : List Nat) : ∀ p : Parser, p.flag = "keyword" →
    bytesToString (scanKeyword p.keyword h) ≠ "Signature" →
    parseSignatureLoop p h =
      .error ⟨"invalid Authorization header, must start from Signature keyword", none⟩ := by
  induction h with
  | nil =>
    intro p hf hs
    show handleSignatureEOF p = _
    rw [show handleSignatureEOF p = setKeyword p from by simp [handleSignatureEOF, hf]]
    simp only [scanKeyword] at hs
    simp [setKeyword, hs]
  | cons c rest ih =>
    intro p hf hs
    have hstep := sigStep_keyword p c hf
    by_cases hl : isLetter c
    · have hk : parseKeyword p c = .ok { p with keyword := p.keyword ++ [c] } := by
        simp [parseKeyword, hl]
      rw [sigLoop_cons_ok p _ c rest (hstep.trans hk)]
      refine ih _ hf ?_
      simp only [scanKeyword, if_pos hl] at hs
      exact hs
    · by_cases hsp : c = space ∧ p.keyword ≠ []
      · have hacc : scanKeyword p.keyword (c :: rest) = p.keyword := by
          simp only [scanKeyword, if_neg hl, if_pos hsp]
        rw [hacc] at hs
        have hsk : setKeyword p =
            .error ⟨"invalid Authorization header, must start from Signature keyword", none⟩ := by
          simp [setKeyword, hs]
        have herr : parseKeyword p c =
            .error ⟨"invalid Authorization header, must start from Signature keyword", none⟩ := by
          simp only [parseKeyword, if_neg hl, if_pos hsp, hsk]
        exact sigLoop_cons_err p _ c rest (hstep.trans herr)
      · have hok : parseKeyword p c = .ok p := by
          simp only [parseKeyword, if_neg hl, if_neg hsp]
        rw [sigLoop_cons_ok p p c rest (hstep.trans hok)]
        refine ih p hf ?_
        simp only [scanKeyword, if_neg hl, if_neg hsp] at hs
        exact hs

/-- C1 (amended): the Authorization parse fails with the
must-start-from-Signature error exactly when the keyword the `keyword` state
accumulates — ASCII letters up to the first space that follows at least one
letter, every other byte silently skipped — is not the literal `Signature`;
the first space-delimited token of the raw text is not what is checked. -/
theorem C1_keyword_scan (h : List Nat) (hne : h ≠ [])
    (hs : bytesToString (scanKeyword [] h) ≠ "Signature") :
    ParseAuthorizationHeader newParser h =
      .error ⟨"invalid Authorization header, must start from Signature keyword", none⟩ := by
  unfold ParseAuthorizationHeader parseSignature
  rw [if_neg hne]
  rw [keyword_loop h { newParser with flag := "keyword" } rfl hs]

/-- C1 counterexample: the header text `!Signature keyId="a"` neither begins
with `Signature` nor has it as first space-delimited token, yet
ParseAuthorizationHeader accepts it, because the `!` byte is silently
skipped while scanning the keyword. -/
theorem C1_counterexample :
    List.take 9 (strBytes ("!Signature keyId=\"a\"")) ≠ strBytes ("Signature") ∧
    List.takeWhile (fun c => c != space) (strBytes ("!Signature keyId=\"a\"")) ≠
      strBytes ("Signature") ∧
    ParseAuthorizationHeader newParser (strBytes ("!Signature keyId=\"a\"")) = .ok bangSigResult :=
  ⟨by decide, by decide, rfl⟩

/-- C1 witness: a header whose scanned keyword is `Bearer` is rejected with
the must-start-from-Signature error. -/
theorem C1_witness :
    ParseAuthorizationHeader newParser (strBytes ("Bearer x")) =
      .error ⟨"invalid Authorization header, must start from Signature keyword", none⟩ :=
  C1_keyword_scan (strBytes ("Bearer x")) (by decide) (by decide)

lemma intValue_digits_loop (ds : List Nat) : ∀ p : Parser, p.flag = "intValue" →
    (∀ c ∈ ds, isDigit c) →
    parseSignatureLoop p ds = handleSignatureEOF { p with value := p.value ++ ds } := by
  induction ds with
  | nil =>
    intro p hf _
    show handleSignatureEOF p = _
    rw [List.append_nil]
  | cons c cs ih =>
    intro p hf hds
    have hc : isDigit c := hds c (by simp)
    have hstep := sigStep_intValue p c hf
    have hok : parseIntValue p c = .ok { p with value := p.value ++ [c] } := by
      simp [parseIntValue, hc]
    rw [sigLoop_cons_ok p _ c cs (hstep.trans hok)]
    rw [ih { p with value := p.value ++ [c] } hf (fun x hx => hds x (by simp [hx]))]
    rw [List.append_assoc]
    rfl

lemma intToTime_range (v : List Nat) (hne : v ≠ []) (hdig : ∀ c ∈ v, isDigit c)
    (hgt : 2147483647 < digitsToNat v) : intToTime v = .error ("value out of range") := by
  simp only [intToTime, parseInt32]
  rw [if_neg (not_or.mpr ⟨hne, not_not_intro hdig⟩), if_pos hgt]

lemma skv_created_range (p : Parser) (hkey : bytesToString p.key = "created")
    (hnp : "created" ∉ p.params) (hne : p.value ≠ []) (hdig : ∀ c ∈ p.value, isDigit c)
    (hgt : 2147483647 < digitsToNat p.value) :
    setKeyValue p =
      .error ⟨"wrong " ++ sq ++ "created" ++ sq ++ " param value", some ("value out of range")⟩ := by
  simp only [setKeyValue]
  rw [hkey, if_neg hne, if_neg hnp]
  rw [if_neg (show ¬ ("created" : String) = "keyId" from by decide)]
  rw [if_neg (show ¬ ("created" : String) = "algorithm" from by decide)]
  rw [if_neg (show ¬ ("created" : String) = "headers" from by decide)]
  rw [if_neg (show ¬ ("created" : String) = "signature" from by decide)]
  rw [if_pos rfl, intToTime_range p.value hne hdig hgt]

lemma skv_expires_range (p : Parser) (hkey : bytesToString p.key = "expires")
    (hnp : "expires" ∉ p.params) (hne : p.value ≠ []) (hdig : ∀ c ∈ p.value, isDigit c)
    (hgt : 2147483647 < digitsToNat p.value) :
    setKeyValue p =
      .error ⟨"wrong " ++ sq ++ "expires" ++ sq ++ " param value", some ("value out of range")⟩ := by
  simp only [setKeyValue]
  rw [hkey, if_neg hne, if_neg hnp]
  rw [if_neg (show ¬ ("expires" : String) = "keyId" from by decide)]
  rw [if_neg (show ¬ ("expires" : String) = "algorithm" from by decide)]
  rw [if_neg (show ¬ ("expires" : String) = "headers" from by decide)]
  rw [if_neg (show ¬ ("expires" : String) = "signature" from by decide)]
  rw [if_neg (show ¬ ("expires" : String) = "created" from by decide)]
  rw [if_pos rfl, intToTime_range p.value hne hdig hgt]

/-- C10: an all-digit `created` or `expires` value whose decimal magnitude
exceeds 2147483647 makes the parse fail with the wrong-param error wrapping
the 32-bit integer-range error; no such value is stored. -/
theorem C10_int32_range (ds : List Nat) (hne : ds ≠ [])
    (hdig : ∀ c ∈ ds, isDigit c) (hgt : 2147483647 < digitsToNat ds) :
    ParseSignatureHeader newParser (strBytes ("created=") ++ ds) =
      .error ⟨"wrong " ++ sq ++ "created" ++ sq ++ " param value", some ("value out of range")⟩ ∧
    ParseSignatureHeader newParser (strBytes ("expires=") ++ ds) =
      .error ⟨"wrong " ++ sq ++ "expires" ++ sq ++ " param value", some ("value out of range")⟩ := by
  constructor
  · unfold ParseSignatureHeader parseSignature
    rw [if_neg (show strBytes ("created=") ++ ds ≠ [] from List.cons_ne_nil _ _)]
    rw [show parseSignatureLoop { newParser with flag := "param" } (strBytes ("created=") ++ ds) =
          parseSignatureLoop createdIntParser ds from rfl]
    rw [intValue_digits_loop ds createdIntParser rfl hdig]
    rw [show handleSignatureEOF { createdIntParser with value := createdIntParser.value ++ ds } =
          setKeyValue { createdIntParser with value := createdIntParser.value ++ ds } from by
        simp [handleSignatureEOF, createdIntParser]]
    have hskv := skv_created_range
      { createdIntParser with value := createdIntParser.value ++ ds } rfl
      (by simp [createdIntParser, newParser])
      (by simpa [createdIntParser, newParser] using hne)
      (by simpa [createdIntParser, newParser] using hdig)
      (by simpa [createdIntParser, newParser] using hgt)
    rw [hskv]
  · unfold ParseSignatureHeader parseSignature
    rw [if_neg (show strBytes ("expires=") ++ ds ≠ [] from List.cons_ne_nil _ _)]
    rw [show parseSignatureLoop { newParser with flag := "param" } (strBytes ("expires=") ++ ds) =
          parseSignatureLoop expiresIntParser ds from rfl]
    rw [intValue_digits_loop ds expiresIntParser rfl hdig]
    rw [show handleSignatureEOF { expiresIntParser with value := expiresIntParser.value ++ ds } =
          setKeyValue { expiresIntParser with value := expiresIntParser.value ++ ds } from by
        simp [handleSignatureEOF, expiresIntParser]]
    have hskv := skv_expires_range
      { expiresIntParser with value := expiresIntParser.value ++ ds } rfl
      (by simp [expiresIntParser, newParser])
      (by simpa [expiresIntParser, newParser] using hne)
      (by simpa [expiresIntParser, newParser] using hdig)
      (by simpa [expiresIntParser, newParser] using hgt)
    rw [hskv]

/-- C10 witness: the value 2147483648 (one above the signed 32-bit maximum)
is rejected for both `created` and `expires`. -/
theorem C10_witness :
    ParseSignatureHeader newParser (strBytes ("created=") ++ strBytes ("2147483648")) =
      .error ⟨"wrong " ++ sq ++ "created" ++ sq ++ " param value", some ("value out of range")⟩ ∧
    ParseSignatureHeader newParser (strBytes ("expires=") ++ strBytes ("2147483648")) =
      .error ⟨"wrong " ++ sq ++ "expires" ++ sq ++ " param value", some ("value out of range")⟩ :=
  C10_int32_range (strBytes ("2147483648")) (by decide) (by decide) (by decide)

lemma inv_setKeyword (p q : Parser) (h : setKeyword p = .ok q) (hp : Inv p) : Inv q := by
  simp only [setKeyword] at h
  by_cases hs : bytesToString p.keyword ≠ "Signature"
  · rw [if_pos hs] at h; cases h
  · rw [if_neg hs] at h; cases h
    intro hne; exact hp hne

lemma inv_skv (p q : Parser) (h : setKeyValue p = .ok q) (hp : Inv p) : Inv q := by
  simp only [setKeyValue] at h
  by_cases h1 : p.value = []
  · rw [if_pos h1] at h; cases h
  rw [if_neg h1] at h
  by_cases h2 : bytesToString p.key ∈ p.params
  · rw [if_pos h2] at h; cases h
  rw [if_neg h2] at h
  by_cases h3 : bytesToString p.key = "keyId"
  · rw [if_pos h3] at h; cases h
    intro hne; exact List.mem_cons_of_mem _ (hp hne)
  rw [if_neg h3] at h
  by_cases h4 : bytesToString p.key = "algorithm"
  · rw [if_pos h4] at h; cases h
    intro hne; exact List.mem_cons_of_mem _ (hp hne)
  rw [if_neg h4] at h
  by_cases h5 : bytesToString p.key = "headers"
  · rw [if_pos h5] at h; cases h
    intro hne; rw [h5]; exact List.mem_cons_self _ _
  rw [if_neg h5] at h
  by_cases h6 : bytesToString p.key = "signature"
  · rw [if_pos h6] at h; cases h
    intro hne; exact List.mem_cons_of_mem _ (hp hne)
  rw [if_neg h6] at h
  by_cases h7 : bytesToString p.key = "created"
  · rw [if_pos h7] at h
    cases hit : intToTime p.value with
    | error e => simp only [hit] at h; cases h
    | ok t =>
      simp only [hit] at h; cases h
      intro hne; exact List.mem_cons_of_mem _ (hp hne)
  rw [if_neg h7] at h
  by_cases h8 : bytesToString p.key = "expires"
  · rw [if_pos h8] at h
    cases hit : intToTime p.value with
    | error e => simp only [hit] at h; cases h
    | ok t =>
      simp only [hit] at h; cases h
      intro hne; exact List.mem_cons_of_mem _ (hp hne)
  rw [if_neg h8] at h
  cases h
  intro hne; exact List.mem_cons_of_mem _ (hp hne)

lemma inv_parseKeyword (p q : Parser) (c : Nat) (h : parseKeyword p c = .ok q) (hp : Inv p) :
    Inv q := by
  simp only [parseKeyword] at h
  by_cases hl : isLetter c
  · rw [if_pos hl] at h; cases h; intro hne; exact hp hne
  rw [if_neg hl] at h
  by_cases hsp : c = space ∧ p.keyword ≠ []
  · rw [if_pos hsp] at h
    cases heq : setKeyword p with
    | error e => simp only [heq] at h; cases h
    | ok q' =>
      simp only [heq] at h; cases h
      intro hne; exact inv_setKeyword p _ heq hp hne
  · rw [if_neg hsp] at h; cases h; intro hne; exact hp hne

lemma inv_parseKey (p q : Parser) (c : Nat) (h : parseKey p c = .ok q) (hp : Inv p) : Inv q := by
  simp only [parseKey] at h
  split_ifs at h
  all_goals (cases h; try (intro hne; exact hp hne))

lemma inv_parseEqual (p q : Parser) (c : Nat) (h : parseEqual p c = .ok q) (hp : Inv p) : Inv q := by
  simp only [parseEqual] at h
  split_ifs at h
  all_goals (cases h; try (intro hne; exact hp hne))

lemma inv_parseQuote (p q : Parser) (c : Nat) (h : parseQuote p c = .ok q) (hp : Inv p) : Inv q := by
  simp only [parseQuote] at h
  split_ifs at h
  all_goals (cases h; try (intro hne; exact hp hne))

lemma inv_parseStringValue (p q : Parser) (c : Nat) (h : parseStringValue p c = .ok q)
    (hp : Inv p) : Inv q := by
  simp only [parseStringValue] at h
  by_cases hq : c ≠ quote
  · rw [if_pos hq] at h; cases h; intro hne; exact hp hne
  · rw [if_neg hq] at h
    cases heq : setKeyValue { p with flag := "div" } with
    | error e => simp only [heq] at h; cases h
    | ok q' =>
      simp only [heq] at h; cases h
      intro hne
      exact inv_skv { p with flag := "div" } _ heq (fun hx => hp hx) hne

lemma inv_parseIntValue (p q : Parser) (c : Nat) (h : parseIntValue p c = .ok q)
    (hp : Inv p) : Inv q := by
  simp only [parseIntValue] at h
  by_cases hd : isDigit c
  · rw [if_pos hd] at h; cases h; intro hne; exact hp hne
  rw [if_neg hd] at h
  by_cases hs : c = space
  · rw [if_pos hs] at h
    by_cases hv : p.value = []
    · rw [if_pos hv] at h; cases h; intro hne; exact hp hne
    · rw [if_neg hv] at h
      cases heq : setKeyValue { p with flag := "div" } with
      | error e => simp only [heq] at h; cases h
      | ok q' =>
        simp only [heq] at h; cases h
        intro hne
        exact inv_skv { p with flag := "div" } _ heq (fun hx => hp hx) hne
  rw [if_neg hs] at h
  by_cases hc : c = div
  · rw [if_pos hc] at h
    cases heq : setKeyValue { p with flag := "param" } with
    | error e => simp only [heq] at h; cases h
    | ok q' =>
      simp only [heq] at h; cases h
      intro hne
      exact inv_skv { p with flag := "param" } _ heq (fun hx => hp hx) hne
  · rw [if_neg hc] at h; cases h; intro hne; exact hp hne

lemma inv_parseDiv (p q : Parser) (c : Nat) (h : parseDiv p c = .ok q) (hp : Inv p) : Inv q := by
  simp only [parseDiv] at h
  split_ifs at h
  all_goals (cases h; try (intro hne; exact hp hne))

lemma inv_step (p q : Parser) (c : Nat) (h : parseSignatureStep p c = .ok q) (hp : Inv p) :
    Inv q := by
  simp only [parseSignatureStep] at h
  by_cases f1 : p.flag = "keyword"
  · rw [if_pos f1] at h; exact inv_parseKeyword p q c h hp
  rw [if_neg f1] at h
  by_cases f2 : p.flag = "param"
  · rw [if_pos f2] at h; exact inv_parseKey p q c h hp
  rw [if_neg f2] at h
  by_cases f3 : p.flag = "equal"
  · rw [if_pos f3] at h; exact inv_parseEqual p q c h hp
  rw [if_neg f3] at h
  by_cases f4 : p.flag = "quote"
  · rw [if_pos f4] at h; exact inv_parseQuote p q c h hp
  rw [if_neg f4] at h
  by_cases f5 : p.flag = "stringValue"
  · rw [if_pos f5] at h; exact inv_parseStringValue p q c h hp
  rw [if_neg f5] at h
  by_cases f6 : p.flag = "intValue"
  · rw [if_pos f6] at h; exact inv_parseIntValue p q c h hp
  rw [if_neg f6] at h
  by_cases f7 : p.flag = "div"
  · rw [if_pos f7] at h; exact inv_parseDiv p q c h hp
  rw [if_neg f7] at h
  cases h

lemma inv_eof (p q : Parser) (h : handleSignatureEOF p = .ok q) (hp : Inv p) : Inv q := by
  simp only [handleSignatureEOF] at h
  by_cases f1 : p.flag = "keyword"
  · rw [if_pos f1] at h; exact inv_setKeyword p q h hp
  rw [if_neg f1] at h
  by_cases f2 : p.flag = "param"
  · rw [if_pos f2] at h
    by_cases hk : p.key = []
    · rw [if_pos hk] at h; cases h
    · rw [if_neg hk] at h; cases h
  rw [if_neg f2] at h
  by_cases f3 : p.flag = "equal"
  · rw [if_pos f3] at h; cases h
  rw [if_neg f3] at h
  by_cases f4 : p.flag = "quote"
  · rw [if_pos f4] at h; cases h
  rw [if_neg f4] at h
  by_cases f5 : p.flag = "stringValue"
  · rw [if_pos f5] at h; cases h
  rw [if_neg f5] at h
  by_cases f6 : p.flag = "intValue"
  · rw [if_pos f6] at h; exact inv_skv p q h hp
  rw [if_neg f6] at h
  cases h; intro hne; exact hp hne

lemma inv_loop (bytes : List Nat) : ∀ p q : Parser,
    parseSignatureLoop p bytes = .ok q → Inv p → Inv q := by
  induction bytes with
  | nil => intro p q h hp; exact inv_eof p q h hp
  | cons c rest ih =>
    intro p q h hp
    simp only [parseSignatureLoop] at h
    cases hstep : parseSignatureStep p c with
    | error e => simp only [hstep] at h; cases h
    | ok p' =>
      simp only [hstep] at h
      exact ih p' q h (inv_step p p' c hstep hp)

lemma parseSignature_headers_default (p0 : Parser) (h : List Nat) (r : ParsedHeader)
    (p' : Parser) (hInv : Inv p0) (hok : parseSignature p0 h = .ok (r, p'))
    (hns : "headers" ∉ p'.params) : r.headers = ["(created)"] := by
  simp only [parseSignature] at hok
  by_cases hhe : h = []
  · rw [if_pos hhe] at hok; cases hok
  rw [if_neg hhe] at hok
  cases hloop : parseSignatureLoop p0 h with
  | error e => simp only [hloop] at hok; cases hok
  | ok q =>
    simp only [hloop] at hok
    have hq : Inv q := inv_loop h p0 q hloop hInv
    by_cases hh : q.parsedHeader.headers = []
    · rw [if_pos hh] at hok
      cases hok
      show q.parsedHeader.headers ++ ["(created)"] = ["(created)"]
      rw [hh]
      rfl
    · rw [if_neg hh] at hok
      cases hok
      exact absurd (hq hh) hns

/-- C5: a successful Authorization/Signature parse from a fresh parser in
which the `headers` parameter was never completed returns a header list that
is exactly the single entry `(created)`. -/
theorem C5_headers_default (h : List Nat) (r : ParsedHeader) (p' : Parser)
    (hok : ParseAuthorizationHeader newParser h = .ok (r, p') ∨
           ParseSignatureHeader newParser h = .ok (r, p'))
    (hns : "headers" ∉ p'.params) : r.headers = ["(created)"] := by
  cases hok with
  | inl hok =>
    exact parseSignature_headers_default { newParser with flag := "keyword" } h r p'
      (fun hne => absurd rfl hne) hok hns
  | inr hok =>
    exact parseSignature_headers_default { newParser with flag := "param" } h r p'
      (fun hne => absurd rfl hne) hok hns

/-- C5 witness: parsing `keyId="a"` (no `headers` parameter) defaults the
header list to `["(created)"]`. -/
theorem C5_witness :
    ParseSignatureHeader newParser (strBytes ("keyId=\"a\"")) = .ok keyIdAResult ∧
    keyIdAResult.1.headers = ["(created)"] :=
  ⟨rfl, C5_headers_default (strBytes ("keyId=\"a\"")) keyIdAResult.1 keyIdAResult.2
    (Or.inr rfl) (by decide)⟩

lemma digLoop_cons_ok (p q : Parser) (c : Nat) (rest : List Nat)
    (h : parseDigestStep p c = .ok q) :
    parseDigestLoop p (c :: rest) = parseDigestLoop q rest := by
  simp [parseDigestLoop, h]

lemma digestAlgLoop (name : List Nat) : ∀ (rest : List Nat) (p : Parser),
    p.flag = "algorithm" → (∀ c ∈ name, isAlgChar c) →
    parseDigestLoop p (name ++ rest) = parseDigestLoop { p with key := p.key ++ name } rest := by
  induction name with
  | nil =>
    intro rest p hf _
    rw [List.append_nil]
    rfl
  | cons c cs ih =>
    intro rest p hf hcls
    have hc : isAlgChar c := hcls c (by simp)
    have hstep : parseDigestStep p c = .ok { p with key := p.key ++ [c] } := by
      simp [parseDigestStep, hf, parseAlgorithm, hc]
    rw [show (c :: cs) ++ rest = c :: (cs ++ rest) from rfl]
    rw [digLoop_cons_ok p _ c (cs ++ rest) hstep]
    rw [ih rest { p with key := p.key ++ [c] } hf (fun x hx => hcls x (by simp [hx]))]
    rw [List.append_assoc]
    rfl

lemma digestRawLoop (v : List Nat) : ∀ p : Parser, p.flag = "stringRawValue" →
    parseDigestLoop p v = handleDigestEOF { p with value := p.value ++ v } := by
  induction v with
  | nil =>
    intro p hf
    show handleDigestEOF p = _
    rw [List.append_nil]
  | cons c cs ih =>
    intro p hf
    have hstep : parseDigestStep p c = .ok { p with value := p.value ++ [c] } := by
      simp [parseDigestStep, hf, parseStringRawValue]
    rw [digLoop_cons_ok p _ c cs hstep]
    rw [ih { p with value := p.value ++ [c] } hf]
    rw [List.append_assoc]
    rfl

lemma parseDigestHeader_decomp (name v : List Nat) (hname : ∀ c ∈ name, isAlgChar c) :
    (v = [] → ParseDigestHeader newParser (name ++ equal :: v) =
      .error ⟨"empty digest value", none⟩) ∧
    (v ≠ [] → ParseDigestHeader newParser (name ++ equal :: v) =
      .ok (⟨toUpperS (bytesToString name), bytesToString v⟩,
           { newParser with
             flag := "stringRawValue",
             parsedDigestHeader := ⟨toUpperS (bytesToString name), bytesToString v⟩ })) := by
  have hnn : name ++ equal :: v ≠ [] := by simp
  have halg : parseDigestLoop { newParser with flag := "algorithm" } (name ++ equal :: v) =
      parseDigestLoop { newParser with flag := "algorithm", key := name } (equal :: v) := by
    rw [digestAlgLoop name (equal :: v) { newParser with flag := "algorithm" } rfl hname]
    rfl
  have heq : parseDigestStep { newParser with flag := "algorithm", key := name } equal =
      .ok { newParser with flag := "stringRawValue", key := name } := by
    have : ¬ isAlgChar equal := by decide
    simp [parseDigestStep, parseAlgorithm, this]
  have hraw : parseDigestLoop { newParser with flag := "stringRawValue", key := name } v =
      handleDigestEOF { newParser with flag := "stringRawValue", key := name, value := v } := by
    rw [digestRawLoop v { newParser with flag := "stringRawValue", key := name } rfl]
    rfl
  have hloop : parseDigestLoop { newParser with flag := "algorithm" } (name ++ equal :: v) =
      handleDigestEOF { newParser with flag := "stringRawValue", key := name, value := v } := by
    rw [halg, digLoop_cons_ok _ _ equal v heq, hraw]
  have heof : handleDigestEOF { newParser with flag := "stringRawValue", key := name, value := v } =
      setDigest { newParser with flag := "stringRawValue", key := name, value := v } := by
    simp [handleDigestEOF]
  constructor
  · intro hv
    unfold ParseDigestHeader parseDigest
    rw [if_neg hnn, hloop, heof]
    rw [show setDigest { newParser with flag := "stringRawValue", key := name, value := v } =
          .error ⟨"empty digest value", none⟩ from by simp [setDigest, hv]]
  · intro hv
    unfold ParseDigestHeader parseDigest
    rw [if_neg hnn, hloop, heof]
    rw [show setDigest { newParser with flag := "stringRawValue", key := name, value := v } =
          .ok { newParser with
                flag := "stringRawValue",
                parsedDigestHeader := ⟨toUpperS (bytesToString name), bytesToString v⟩ } from by
        simp [setDigest, hv, newParser]]

/-- C6: a Digest header `NAME=v` with `NAME` of letters, digits and `-`
parses into the upper-cased name and the verbatim value (every byte after
the first `=`, `=` padding included) when `v` is non-empty, and fails with
`empty digest value` when `v` is empty. -/
theorem C6_digest_header (name v : List Nat) (hname : ∀ c ∈ name, isAlgChar c) :
    (v = [] → ParseDigestHeader newParser (name ++ equal :: v) =
      .error ⟨"empty digest value", none⟩) ∧
    (v ≠ [] → ∃ q, ParseDigestHeader newParser (name ++ equal :: v) =
      .ok (⟨toUpperS (bytesToString name), bytesToString v⟩, q)) := by
  exact ⟨(parseDigestHeader_decomp name v hname).1,
    fun hv => ⟨_, (parseDigestHeader_decomp name v hname).2 hv⟩⟩

/-- C6 witness: `sha-256=abc==` parses to algorithm `SHA-256` and digest
`abc==` taken verbatim. -/
theorem C6_witness :
    ∃ q, ParseDigestHeader newParser (strBytes ("sha-256") ++ equal :: strBytes ("abc==")) =
      .ok (⟨toUpperS (bytesToString (strBytes ("sha-256"))),
            bytesToString (strBytes ("abc=="))⟩, q) :=
  (C6_digest_header (strBytes ("sha-256")) (strBytes ("abc==")) (by decide)).2 (by decide)

lemma char_toNat_ofNat (x : Nat) (h : x < 55296) : (Char.ofNat x).toNat = x := by
  have hv : x.isValidChar := Or.inl h
  unfold Char.ofNat
  rw [dif_pos hv]
  unfold Char.ofNatAux Char.toNat
  simp [UInt32.toNat]

lemma strBytes_bytesToString (l : List Nat) (h : ∀ x ∈ l, x < 55296) :
    strBytes (bytesToString l) = l := by
  unfold strBytes bytesToString
  simp only [String.data]
  rw [List.map_map]
  refine List.map_congr_left ?_ |>.trans (List.map_id l)
  intro x hx
  exact char_toNat_ofNat x (h x hx)

lemma b64_bridge : ∀ n < 64, b64Val (b64Char n) = some n := by decide

lemma b64Char_ne_61 (n : Nat) : b64Char n ≠ 61 := by
  unfold b64Char; split_ifs <;> omega

lemma b64Char_lt (n : Nat) : b64Char n < 128 := by
  unfold b64Char; split_ifs <;> omega

lemma base64Encode_ne_nil (l : List Nat) (h : l ≠ []) : base64Encode l ≠ [] :=
  match l with
  | [] => absurd rfl h
  | [_] => by simp [base64Encode]
  | [_, _] => by simp [base64Encode]
  | _ :: _ :: _ :: _ => by simp [base64Encode]

lemma base64Encode_all_lt : ∀ l : List Nat, ∀ x ∈ base64Encode l, x < 128 := by
  intro l
  induction l using base64Encode.induct with
  | case1 => simp [base64Encode]
  | case2 a =>
    intro x hx
    simp only [base64Encode, List.mem_cons, List.not_mem_nil, or_false] at hx
    rcases hx with rfl | rfl | rfl | rfl
    · exact b64Char_lt _
    · exact b64Char_lt _
    · omega
    · omega
  | case3 a b =>
    intro x hx
    simp only [base64Encode, List.mem_cons, List.not_mem_nil, or_false] at hx
    rcases hx with rfl | rfl | rfl | rfl
    · exact b64Char_lt _
    · exact b64Char_lt _
    · exact b64Char_lt _
    · omega
  | case4 a b c rest ih =>
    intro x hx
    simp only [base64Encode, List.mem_cons] at hx
    rcases hx with rfl | rfl | rfl | rfl | hx
    · exact b64Char_lt _
    · exact b64Char_lt _
    · exact b64Char_lt _
    · exact b64Char_lt _
    · exact ih x hx

lemma base64_roundtrip : ∀ l : List Nat, (∀ x ∈ l, x < 256) →
    base64Decode (base64Encode l) = .ok l := by
  intro l
  induction l using base64Encode.induct with
  | case1 => intro _; rfl
  | case2 a =>
    intro h
    have ha : a < 256 := h a (by simp)
    show base64Decode [b64Char (a / 4), b64Char (a % 4 * 16), 61, 61] = .ok [a]
    simp only [base64Decode]
    rw [if_pos (show _ ∧ _ ∧ _ by simp)]
    rw [b64_bridge (a / 4) (by omega), b64_bridge (a % 4 * 16) (by omega)]
    show (if a % 4 * 16 % 16 = 0 then Except.ok [a / 4 * 4 + a % 4 * 16 / 16]
          else Except.error ("illegal base64 data")) = Except.ok [a]
    rw [if_pos (by omega)]
    have : a / 4 * 4 + a % 4 * 16 / 16 = a := by omega
    rw [this]
  | case3 a b =>
    intro h
    have ha : a < 256 := h a (by simp)
    have hb : b < 256 := h b (by simp)
    show base64Decode [b64Char (a / 4), b64Char (a % 4 * 16 + b / 16), b64Char (b % 16 * 4), 61] =
      .ok [a, b]
    simp only [base64Decode]
    rw [if_neg (fun hcon => b64Char_ne_61 _ hcon.1), if_pos (show _ ∧ _ by simp)]
    rw [b64_bridge (a / 4) (by omega), b64_bridge (a % 4 * 16 + b / 16) (by omega),
        b64_bridge (b % 16 * 4) (by omega)]
    show (if b % 16 * 4 % 4 = 0 then
            Except.ok [a / 4 * 4 + (a % 4 * 16 + b / 16) / 16,
                       (a % 4 * 16 + b / 16) % 16 * 16 + b % 16 * 4 / 4]
          else Except.error ("illegal base64 data")) = Except.ok [a, b]
    rw [if_pos (by omega)]
    have h1 : a / 4 * 4 + (a % 4 * 16 + b / 16) / 16 = a := by omega
    have h2 : (a % 4 * 16 + b / 16) % 16 * 16 + b % 16 * 4 / 4 = b := by omega
    rw [h1, h2]
  | case4 a b c rest ih =>
    intro h
    have ha : a < 256 := h a (by simp)
    have hb : b < 256 := h b (by simp)
    have hc : c < 256 := h c (by simp)
    have hrest := ih (fun x hx => h x (by simp [hx]))
    show base64Decode (b64Char (a / 4) :: b64Char (a % 4 * 16 + b / 16) ::
        b64Char (b % 16 * 4 + c / 64) :: b64Char (c % 64) :: base64Encode rest) =
      .ok (a :: b :: c :: rest)
    simp only [base64Decode]
    rw [if_neg (fun hcon => b64Char_ne_61 _ hcon.1),
        if_neg (fun hcon => b64Char_ne_61 _ hcon.1)]
    rw [b64_bridge (a / 4) (by omega), b64_bridge (a % 4 * 16 + b / 16) (by omega),
        b64_bridge (b % 16 * 4 + c / 64) (by omega), b64_bridge (c % 64) (by omega)]
    show (match base64Decode (base64Encode rest) with
          | Except.ok ds =>
            Except.ok ((a / 4 * 4 + (a % 4 * 16 + b / 16) / 16) ::
              ((a % 4 * 16 + b / 16) % 16 * 16 + (b % 16 * 4 + c / 64) / 4) ::
              ((b % 16 * 4 + c / 64) % 4 * 64 + c % 64) :: ds)
          | Except.error e => Except.error e) = Except.ok (a :: b :: c :: rest)
    rw [hrest]
    have h1 : a / 4 * 4 + (a % 4 * 16 + b / 16) / 16 = a := by omega
    have h2 : (a % 4 * 16 + b / 16) % 16 * 16 + (b % 16 * 4 + c / 64) / 4 = b := by omega
    have h3 : (b % 16 * 4 + c / 64) % 4 * 64 + c % 64 = c := by omega
    rw [h1, h2, h3]

/-- C9: the digest facade's Verify fails with `empty body` for every
zero-length body, whatever the Digest header text contains (malformed,
unregistered algorithm name, or invalid digest value alike), and for any
hash primitives seeding the registry. -/
theorem C9_empty_body (H : HashImpls) (header : List Nat) :
    Digest.Verify (newDigest H) ⟨header, []⟩ = .error ("empty body") := rfl

lemma digest_roundtrip_aux (d : Digest) (name : String) (body : List Nat)
    (a : DigestHashAlgorithm)
    (hl : List.lookup name d.alg = some a)
    (hnm : ∀ c ∈ strBytes name, isAlgChar c)
    (hup : toUpperS (bytesToString (strBytes name)) = name)
    (hbody : body ≠ [])
    (hh1 : a.create body ≠ [])
    (hh2 : ∀ x ∈ a.create body, x < 256) :
    ∃ hv, Digest.Create d name body = .ok hv ∧ Digest.Verify d ⟨hv, body⟩ = .ok () := by
  have henc_ne : base64Encode (a.create body) ≠ [] := base64Encode_ne_nil _ hh1
  have hparse := (parseDigestHeader_decomp (strBytes name) (base64Encode (a.create body)) hnm).2
    henc_ne
  refine ⟨strBytes name ++ [equal] ++ base64Encode (a.create body), ?_, ?_⟩
  · simp only [Digest.Create, hl]
  · simp only [Digest.Verify]
    rw [if_neg hbody]
    rw [show strBytes name ++ [equal] ++ base64Encode (a.create body) =
          strBytes name ++ equal :: base64Encode (a.create body) from by
        rw [List.append_assoc]; rfl]
    rw [hparse, hup]
    show (match List.lookup name d.alg with
          | none => Except.error ("unsupported digest hash algorithm " ++ sq ++ name ++ sq)
          | some al =>
            match base64Decode (strBytes (bytesToString (base64Encode (a.create body)))) with
            | Except.error e => Except.error ("error decode digest from base64: " ++ e)
            | Except.ok db =>
              match digestHashAlgorithmVerify al body db with
              | Except.error e => Except.error ("wrong digest: " ++ e)
              | Except.ok _ => Except.ok ()) = Except.ok ()
    rw [hl]
    rw [strBytes_bytesToString (base64Encode (a.create body))
        (fun x hx => lt_trans (base64Encode_all_lt _ x hx) (by omega))]
    rw [base64_roundtrip (a.create body) hh2]
    show (match digestHashAlgorithmVerify a body (a.create body) with
          | Except.error e => Except.error ("wrong digest: " ++ e)
          | Except.ok _ => Except.ok ()) = Except.ok ()
    rw [show digestHashAlgorithmVerify a body (a.create body) = .ok () from by
        simp [digestHashAlgorithmVerify]]

/-- C8 (amended): for every non-empty body and each registered default
algorithm (MD5, SHA-256, SHA-512, with hash primitives producing a non-empty
byte string), verifying a message whose Digest header is the value returned
by Create and whose body is the same body succeeds; the round-trip fails for
the empty body, which Verify rejects. -/
theorem C8_create_verify (H : HashImpls) (name : String) (body : List Nat)
    (hname : name = "MD5" ∨ name = "SHA-256" ∨ name = "SHA-512")
    (hbody : body ≠ [])
    (hh1 : hashOf H name body ≠ [])
    (hh2 : ∀ x ∈ hashOf H name body, x < 256) :
    ∃ hv, Digest.Create (newDigest H) name body = .ok hv ∧
          Digest.Verify (newDigest H) ⟨hv, body⟩ = .ok () := by
  rcases hname with rfl | rfl | rfl
  · exact digest_roundtrip_aux (newDigest H) "MD5" body ⟨"MD5", H.md5⟩ rfl
      (by decide) (by decide) hbody hh1 hh2
  · exact digest_roundtrip_aux (newDigest H) "SHA-256" body ⟨"SHA-256", H.sha256⟩ rfl
      (by decide) (by decide) hbody hh1 hh2
  · exact digest_roundtrip_aux (newDigest H) "SHA-512" body ⟨"SHA-512", H.sha512⟩ rfl
      (by decide) (by decide) hbody hh1 hh2

/-- C8 counterexample: for the empty body the round-trip fails — Create
succeeds but Verify rejects the message with `empty body`. -/
theorem C8_counterexample :
    Digest.Create (newDigest constHashImpls) "MD5" [] = .ok (strBytes ("MD5=AQ==")) ∧
    Digest.Verify (newDigest constHashImpls) ⟨strBytes ("MD5=AQ=="), []⟩ =
      .error ("empty body") :=
  ⟨rfl, rfl⟩

/-- C8 witness: the round-trip succeeds for the one-byte body `t` under MD5
with a concrete hash assignment. -/
theorem C8_witness :
    ∃ hv, Digest.Create (newDigest constHashImpls) "MD5" [116] = .ok hv ∧
          Digest.Verify (newDigest constHashImpls) ⟨hv, [116]⟩ = .ok () :=
  C8_create_verify constHashImpls ("MD5") [116] (Or.inl rfl) (by decide) (by decide) (by decide)

end httpsignatures
